import Mathlib

/-!
Shallow embedding of `src/syscall/fs_js.go` (the js/wasm file-descriptor
translation layer of the Go runtime) and proofs about the claims of its
specification.

Modelling conventions:
* A Go string that is only ever treated as a byte sequence (directory entry
  names copied into a caller buffer) is modelled as `List Nat`, each element a
  byte value `< 256` produced by Go's `byte(...)` truncation, written `% 256`.
* Go's `int`/`int64` are modelled as `Int`; Go division/remainder on them
  truncate toward zero, which is `Int.tdiv`/`Int.tmod`.
* The host filesystem API (`fsCall`) is external: each host invocation is
  modelled as an oracle argument of type `Except Errno α` (the value the host
  call would produce, or the POSIX errno the error translator would derive
  from the raised js error).  Functions that make a host call additionally
  report whether the host was actually invoked where a claim depends on it.
* The descriptor table `files : map[int]*jsFile` is modelled as an
  association list with first-match lookup; `setFd` models map assignment
  (in-place pointer mutation of a looked-up record updates the table entry,
  which is the same thing for a map from fd to record value) and `delFd`
  models `delete(files, fd)`.
-/

namespace FsJs

/-- POSIX error numbers used by this layer (`EBADF`, `EINVAL`, `ENOSYS`, ...);
`other` stands for any further errno the error translator can produce. -/
inductive Errno where
  | EBADF
  | EINVAL
  | ENOSYS
  | ENOENT
  | EPERM
  | other (code : Nat)
deriving DecidableEq, Repr

/-- The per-descriptor record `jsFile` of fs_js.go: original open path,
pending directory entries (`none` models a nil Go slice, `some` a non-nil
one; entry names are byte sequences), tracked cursor position `pos`, and the
`seeked` flag set by Seek. -/
structure jsFile where
  path : String
  entries : Option (List (List Nat))
  pos : Int
  seeked : Bool
deriving DecidableEq, Repr

/-- The descriptor table `files : map[int]*jsFile`, as an association list. -/
abbrev FS := List (Int × jsFile)

/-- Map lookup `files[fd]`. -/
def lookupFd : FS → Int → Option jsFile
  | [], _ => none
  | (k, f) :: rest, fd => if k = fd then some f else lookupFd rest fd

/-- Map assignment `files[fd] = f` (also models mutation through the record
pointer returned by a lookup). -/
def setFd : FS → Int → jsFile → FS
  | [], fd, f => [(fd, f)]
  | (k, g) :: rest, fd, f =>
    if k = fd then (fd, f) :: rest else (k, g) :: setFd rest fd f

/-- Map deletion `delete(files, fd)`. -/
def delFd : FS → Int → FS
  | [], _ => []
  | (k, g) :: rest, fd =>
    if k = fd then delFd rest fd else (k, g) :: delFd rest fd

/-- The initial descriptor table: fds 0, 1, 2 pre-registered with zero-valued
records (`&jsFile{}`). -/
def initialFiles : FS :=
  [(0, ⟨"", none, 0, false⟩), (1, ⟨"", none, 0, false⟩), (2, ⟨"", none, 0, false⟩)]

/-- The lookup helper `fdToFile`: `EBADF` when the descriptor is not in the
table. -/
def fdToFile (files : FS) (fd : Int) : Except Errno jsFile :=
  match lookupFd files fd with
  | none => .error Errno.EBADF
  | some f => .ok f

/-- The path validation `checkPath`: rejects the empty path and any path
containing a NUL byte with `EINVAL`. -/
def checkPath (path : String) : Option Errno :=
  if path = "" then some Errno.EINVAL
  else if path.data.any (fun c => c = Char.ofNat 0) then some Errno.EINVAL
  else none

/-- The host stat object as consulted by `Open` right after the host open:
only its `isDirectory()` answer is used there. -/
abbrev HostFstatDir := Except Errno Bool

/-- The `Open` syscall.  Host oracles: `hostOpen` is the `openSync` call
(its flag/permission arguments are absorbed by the oracle), `hostFstat` the
immediate `fstatSync` of the new descriptor reduced to its `isDirectory()`
answer, `hostReaddir` the `readdirSync` listing (entry names as byte
sequences).  Returns the syscall result and the table after the call. -/
def Open (files : FS) (path : String) (hostOpen : Except Errno Int)
    (hostFstat : HostFstatDir) (hostReaddir : Except Errno (List (List Nat))) :
    Except Errno Int × FS :=
  match checkPath path with
  | some e => (.error e, files)
  | none =>
    match hostOpen with
    | .error e => (.error e, files)
    | .ok fd =>
      match hostFstat with
      | .ok true =>
        match hostReaddir with
        | .error e => (.error e, files)
        | .ok dir => (.ok fd, setFd files fd ⟨path, some dir, 0, false⟩)
      | _ => (.ok fd, setFd files fd ⟨path, none, 0, false⟩)

/-- The `Close` syscall: deletes the table entry first, then performs the
host `closeSync` call (oracle `hostClose`, `none` = success) and returns
whatever that call reported. -/
def Close (files : FS) (hostClose : Option Errno) (fd : Int) : Option Errno × FS :=
  (hostClose, delFd files fd)

/-- Length of one directory-entry wire record: 2-byte header plus the name. -/
def entryRecordLen (entry : List Nat) : Nat := 2 + entry.length

/-- One wire record as written by the ReadDirent loop body:
`buf[0] = byte(l)`, `buf[1] = byte(l >> 8)`, then the name bytes. -/
def encodeRecord (entry : List Nat) : List Nat :=
  entryRecordLen entry % 256 :: (entryRecordLen entry >>> 8) % 256 :: entry

/-- The drain loop of `ReadDirent`: given the pending entries and the length
of the remaining buffer, returns the bytes written, the byte count `n`, and
the entries left in the queue. -/
def readDirentLoop : List (List Nat) → Nat → List Nat × Nat × List (List Nat)
  | [], _ => ([], 0, [])
  | entry :: rest, bufLen =>
    let l := entryRecordLen entry
    if l > bufLen then ([], 0, entry :: rest)
    else
      let r := readDirentLoop rest (bufLen - l)
      (encodeRecord entry ++ r.1, l + r.2.1, r.2.2)

/-- The `ReadDirent` syscall: `EBADF` for an unknown descriptor, `EINVAL`
when the record has no pending-entries queue (`entries == nil`), otherwise
drains records into a buffer of length `bufLen` and stores the remaining
queue back into the record.  Returns `(n, written bytes)` and the table
after the call. -/
def ReadDirent (files : FS) (fd : Int) (bufLen : Nat) :
    Except Errno (Nat × List Nat) × FS :=
  match lookupFd files fd with
  | none => (.error Errno.EBADF, files)
  | some f =>
    match f.entries with
    | none => (.error Errno.EINVAL, files)
    | some es =>
      let r := readDirentLoop es bufLen
      (.ok (r.2.1, r.1), setFd files fd { f with entries := some r.2.2 })

/-- Number of entries the ReadDirent loop drains from the queue for a given
buffer length (a derived spec-side count used to state the drain theorem). -/
def drainCount : List (List Nat) → Nat → Nat
  | [], _ => 0
  | entry :: rest, bufLen =>
    let l := entryRecordLen entry
    if l > bufLen then 0 else drainCount rest (bufLen - l) + 1

/-- A directory-entry name of 65534 bytes (all `a`), used to exercise the
2-byte record-length header at its wrap-around point. -/
def longName : List Nat := List.replicate 65534 97

/-- The host metadata object consumed by `setStat`: the fields read from the
js stat value, already converted to integers by `.Int()`. -/
structure JsStat where
  dev : Int
  ino : Int
  mode : Int
  nlink : Int
  uid : Int
  gid : Int
  rdev : Int
  size : Int
  blksize : Int
  blocks : Int
  atimeMs : Int
  mtimeMs : Int
  ctimeMs : Int
deriving DecidableEq, Repr

/-- Go's `uint64(x)` / `uint32(x)` conversions: reduction modulo `2 ^ w`. -/
def toUnsigned (w : Nat) (x : Int) : Int := x % ((2 : Int) ^ w)

/-- Go's `int32(x)` conversion: two's-complement wrap into
`[-2 ^ 31, 2 ^ 31)`. -/
def toInt32 (x : Int) : Int := (x + 2 ^ 31) % 2 ^ 32 - 2 ^ 31

/-- The `Stat_t` structure as populated by `setStat` (fields the js port
fills; unsigned/32-bit fields hold their converted values). -/
structure Stat_t where
  Dev : Int
  Ino : Int
  Mode : Int
  Nlink : Int
  Uid : Int
  Gid : Int
  Rdev : Int
  Size : Int
  Blksize : Int
  Blocks : Int
  Atime : Int
  AtimeNsec : Int
  Mtime : Int
  MtimeNsec : Int
  Ctime : Int
  CtimeNsec : Int
deriving DecidableEq, Repr

/-- The metadata-population function `setStat`: copies each host field with
the Go conversion applied, and splits the millisecond timestamps into whole
seconds and nanosecond remainder with Go's truncating division/remainder. -/
def setStat (st : Stat_t) (jsSt : JsStat) : Stat_t :=
  { st with
    Dev := jsSt.dev
    Ino := toUnsigned 64 jsSt.ino
    Mode := toUnsigned 32 jsSt.mode
    Nlink := toUnsigned 32 jsSt.nlink
    Uid := toUnsigned 32 jsSt.uid
    Gid := toUnsigned 32 jsSt.gid
    Rdev := jsSt.rdev
    Size := jsSt.size
    Blksize := toInt32 jsSt.blksize
    Blocks := toInt32 jsSt.blocks
    Atime := Int.tdiv jsSt.atimeMs 1000
    AtimeNsec := Int.tmod jsSt.atimeMs 1000 * 1000000
    Mtime := Int.tdiv jsSt.mtimeMs 1000
    MtimeNsec := Int.tmod jsSt.mtimeMs 1000 * 1000000
    Ctime := Int.tdiv jsSt.ctimeMs 1000
    CtimeNsec := Int.tmod jsSt.ctimeMs 1000 * 1000000 }

/-- The `Chown` syscall: validates the path, then reports `ENOSYS`. -/
def Chown (path : String) (uid gid : Int) : Option Errno :=
  match checkPath path with
  | some e => some e
  | none => some Errno.ENOSYS

/-- The `Fchown` syscall: always `ENOSYS`. -/
def Fchown (fd uid gid : Int) : Option Errno := some Errno.ENOSYS

/-- The `Lchown` syscall: validates the path, then reports `ENOSYS`. -/
def Lchown (path : String) (uid gid : Int) : Option Errno :=
  match checkPath path with
  | some e => some e
  | none => some Errno.ENOSYS

/-- A `Timespec` value as passed to `UtimesNano`. -/
structure Timespec where
  Sec : Int
  Nsec : Int
deriving DecidableEq, Repr

/-- The `UtimesNano` syscall.  Returns the syscall result together with the
arguments of the host `utimesSync` call that was made (`none` when no host
call happened); `hostUtimes` is the host call's result oracle. -/
def UtimesNano (hostUtimes : Option Errno) (path : String) (ts : List Timespec) :
    Option Errno × Option (String × Int × Int) :=
  match checkPath path with
  | some e => (some e, none)
  | none =>
    if ts.length ≠ 2 then (some Errno.EINVAL, none)
    else
      match ts with
      | t0 :: t1 :: _ => (hostUtimes, some (path, t0.Sec, t1.Sec))
      | _ => (some Errno.EINVAL, none)

/-- `io.SeekStart`. -/
def seekStart : Int := 0
/-- `io.SeekCurrent`. -/
def seekCurrent : Int := 1
/-- `io.SeekEnd`. -/
def seekEnd : Int := 2

/-- The `Seek` syscall.  `hostFstatSize` is the oracle for the `Fstat` host
call needed by `whence = end` (the `st.Size` it would report).  Returns
`((result, table after the call), host-call flag)`, the flag recording
whether a host call was attempted during this Seek. -/
def Seek (files : FS) (hostFstatSize : Except Errno Int) (fd offset whence : Int) :
    (Except Errno Int × FS) × Bool :=
  match lookupFd files fd with
  | none => ((.error Errno.EBADF, files), false)
  | some f =>
    if whence = seekStart then
      let newPos := offset
      if newPos < 0 then ((.error Errno.EINVAL, files), false)
      else ((.ok newPos, setFd files fd { f with seeked := true, pos := newPos }), false)
    else if whence = seekCurrent then
      let newPos := f.pos + offset
      if newPos < 0 then ((.error Errno.EINVAL, files), false)
      else ((.ok newPos, setFd files fd { f with seeked := true, pos := newPos }), false)
    else if whence = seekEnd then
      match hostFstatSize with
      | .error e => ((.error e, files), true)
      | .ok size =>
        let newPos := size + offset
        if newPos < 0 then ((.error Errno.EINVAL, files), true)
        else ((.ok newPos, setFd files fd { f with seeked := true, pos := newPos }), true)
    else ((.error Errno.EINVAL, files), false)

/-- The `Pwrite` helper: a host `writeSync` call at an explicit offset;
returns `(0, err)` on failure, `(n, nil)` on success; never touches the
tracked cursor itself. -/
def Pwrite (hostWrite : Except Errno Int) : Int × Option Errno :=
  match hostWrite with
  | .error e => (0, some e)
  | .ok n => (n, none)

/-- The `Pread` helper, identical in shape to `Pwrite`. -/
def Pread (hostRead : Except Errno Int) : Int × Option Errno :=
  match hostRead with
  | .error e => (0, some e)
  | .ok n => (n, none)

/-- The `Write` syscall.  `hostWrite` is the oracle for the single host
`writeSync` call (positioned when `f.seeked`, cursor-implicit otherwise);
the buffer itself is absorbed by the oracle, whose `.ok` value is the byte
count the host reports.  Returns `((n, err), table after the call)`. -/
def Write (files : FS) (hostWrite : Except Errno Int) (fd : Int) :
    (Int × Option Errno) × FS :=
  match lookupFd files fd with
  | none => ((0, some Errno.EBADF), files)
  | some f =>
    if f.seeked then
      let r := Pwrite hostWrite
      ((r.1, r.2), setFd files fd { f with pos := f.pos + r.1 })
    else
      match hostWrite with
      | .error e => ((0, some e), files)
      | .ok n => ((n, none), setFd files fd { f with pos := f.pos + n })

/-- The `Read` syscall, symmetric to `Write`. -/
def Read (files : FS) (hostRead : Except Errno Int) (fd : Int) :
    (Int × Option Errno) × FS :=
  match lookupFd files fd with
  | none => ((0, some Errno.EBADF), files)
  | some f =>
    if f.seeked then
      let r := Pread hostRead
      ((r.1, r.2), setFd files fd { f with pos := f.pos + r.1 })
    else
      match hostRead with
      | .error e => ((0, some e), files)
      | .ok n => ((n, none), setFd files fd { f with pos := f.pos + n })

/-- Looking up a descriptor right after assigning it finds the assigned
record. -/
theorem lookupFd_setFd_self (files : FS) (fd : Int) (f : jsFile) :
    lookupFd (setFd files fd f) fd = some f := by
  induction files with
  | nil => simp [setFd, lookupFd]
  | cons p rest ih =>
    obtain ⟨k, g⟩ := p
    by_cases h : k = fd <;> simp [setFd, lookupFd, h, ih]

/-- Looking up a descriptor right after deleting it finds nothing. -/
theorem lookupFd_delFd_self (files : FS) (fd : Int) :
    lookupFd (delFd files fd) fd = none := by
  induction files with
  | nil => simp [delFd, lookupFd]
  | cons p rest ih =>
    obtain ⟨k, g⟩ := p
    by_cases h : k = fd <;> simp [delFd, lookupFd, h, ih]

/-- C1: for any descriptor in the table, `seek(fd, 10, start)` then
`write(fd, b)` with the host reporting all `len b` bytes written, then
`seek(fd, 0, current)` returns `10 + len b`; in general a write after a seek
advances the tracked position by the reported byte count, and a `current`
seek resolves against the tracked position. -/
theorem seek_write_seek_tracks_position (files : FS) (fd : Int) (f : jsFile)
    (b : List Nat) (hsz1 hsz2 : Except Errno Int)
    (hfd : lookupFd files fd = some f) :
    ∃ files1 files2 : FS,
      Seek files hsz1 fd 10 seekStart = ((.ok 10, files1), false) ∧
      Write files1 (.ok (b.length : Int)) fd = (((b.length : Int), none), files2) ∧
      (Seek files2 hsz2 fd 0 seekCurrent).1.1 = .ok (10 + (b.length : Int)) ∧
      (∀ (files' : FS) (g : jsFile) (N : Int), lookupFd files' fd = some g →
        g.seeked = true →
        Write files' (.ok N) fd = ((N, none), setFd files' fd { g with pos := g.pos + N })) ∧
      (∀ (files' : FS) (g : jsFile), lookupFd files' fd = some g → 0 ≤ g.pos →
        (Seek files' hsz2 fd 0 seekCurrent).1.1 = .ok g.pos) := by
  refine ⟨setFd files fd { f with seeked := true, pos := 10 },
    setFd (setFd files fd { f with seeked := true, pos := 10 }) fd
      { f with seeked := true, pos := 10 + (b.length : Int) },
    ?_, ?_, ?_, ?_, ?_⟩
  · simp [Seek, seekStart, hfd]
  · simp [Write, Pwrite, lookupFd_setFd_self]
  · have hb : ¬ ((10 : Int) + (b.length : Int) < 0) := by omega
    simp [Seek, seekStart, seekCurrent, lookupFd_setFd_self, hb]
  · intro files' g N hg hseek
    simp [Write, Pwrite, hg, hseek]
  · intro files' g hg hpos
    have hg0 : ¬ g.pos < 0 := by omega
    simp [Seek, seekStart, seekCurrent, hg, hg0]

/-- Witness for C1 at the initial table, descriptor 1, empty buffer. -/
theorem seek_write_seek_tracks_position_witness :
    ∃ files1 files2 : FS,
      Seek initialFiles (.ok 0) 1 10 seekStart = ((.ok 10, files1), false) ∧
      Write files1 (.ok (([] : List Nat).length : Int)) 1 =
        (((([] : List Nat).length : Int), none), files2) ∧
      (Seek files2 (.ok 0) 1 0 seekCurrent).1.1 = .ok (10 + (([] : List Nat).length : Int)) ∧
      (∀ (files' : FS) (g : jsFile) (N : Int), lookupFd files' 1 = some g →
        g.seeked = true →
        Write files' (.ok N) 1 = ((N, none), setFd files' 1 { g with pos := g.pos + N })) ∧
      (∀ (files' : FS) (g : jsFile), lookupFd files' 1 = some g → 0 ≤ g.pos →
        (Seek files' (.ok 0) 1 0 seekCurrent).1.1 = .ok g.pos) :=
  seek_write_seek_tracks_position initialFiles 1 ⟨"", none, 0, false⟩ [] (.ok 0) (.ok 0)
    (by decide)

/-- C2: close deletes the table entry before the host release call, returns
exactly the host's result, and the entry stays gone even when the host
release fails, so any subsequent read, write, seek or readDirectoryEntries
on that descriptor fails with `EBADF`. -/
theorem close_removes_entry_first (files : FS) (fd : Int) (hostClose : Option Errno)
    (hostW hostR hsz : Except Errno Int) (off wh : Int) (bufLen : Nat) :
    (Close files hostClose fd).1 = hostClose ∧
    lookupFd (Close files hostClose fd).2 fd = none ∧
    Read (Close files hostClose fd).2 hostR fd =
      ((0, some Errno.EBADF), (Close files hostClose fd).2) ∧
    Write (Close files hostClose fd).2 hostW fd =
      ((0, some Errno.EBADF), (Close files hostClose fd).2) ∧
    Seek (Close files hostClose fd).2 hsz fd off wh =
      ((.error Errno.EBADF, (Close files hostClose fd).2), false) ∧
    ReadDirent (Close files hostClose fd).2 fd bufLen =
      (.error Errno.EBADF, (Close files hostClose fd).2) := by
  simp [Close, Read, Write, Seek, ReadDirent, lookupFd_delFd_self]

/-- Witness for C2: closing descriptor 1 of the initial table while the host
release call fails with `EPERM`. -/
theorem close_removes_entry_first_witness :
    (Close initialFiles (some Errno.EPERM) 1).1 = some Errno.EPERM ∧
    lookupFd (Close initialFiles (some Errno.EPERM) 1).2 1 = none ∧
    Read (Close initialFiles (some Errno.EPERM) 1).2 (.ok 0) 1 =
      ((0, some Errno.EBADF), (Close initialFiles (some Errno.EPERM) 1).2) ∧
    Write (Close initialFiles (some Errno.EPERM) 1).2 (.ok 0) 1 =
      ((0, some Errno.EBADF), (Close initialFiles (some Errno.EPERM) 1).2) ∧
    Seek (Close initialFiles (some Errno.EPERM) 1).2 (.ok 0) 1 0 0 =
      ((.error Errno.EBADF, (Close initialFiles (some Errno.EPERM) 1).2), false) ∧
    ReadDirent (Close initialFiles (some Errno.EPERM) 1).2 1 16 =
      (.error Errno.EBADF, (Close initialFiles (some Errno.EPERM) 1).2) :=
  close_removes_entry_first initialFiles 1 (some Errno.EPERM) (.ok 0) (.ok 0) (.ok 0) 0 0 16

/-- A wire record is 2 header bytes plus the name bytes. -/
theorem encodeRecord_length (entry : List Nat) :
    (encodeRecord entry).length = entryRecordLen entry := by
  simp [encodeRecord, entryRecordLen]
  omega

/-- Unfolding equation of the ReadDirent loop on a non-empty queue. -/
theorem readDirentLoop_cons (entry : List Nat) (rest : List (List Nat)) (bufLen : Nat) :
    readDirentLoop (entry :: rest) bufLen =
      if entryRecordLen entry > bufLen then ([], 0, entry :: rest)
      else
        (encodeRecord entry ++ (readDirentLoop rest (bufLen - entryRecordLen entry)).1,
          entryRecordLen entry + (readDirentLoop rest (bufLen - entryRecordLen entry)).2.1,
          (readDirentLoop rest (bufLen - entryRecordLen entry)).2.2) := rfl

/-- Unfolding equation of the drain count on a non-empty queue. -/
theorem drainCount_cons (entry : List Nat) (rest : List (List Nat)) (bufLen : Nat) :
    drainCount (entry :: rest) bufLen =
      if entryRecordLen entry > bufLen then 0
      else drainCount rest (bufLen - entryRecordLen entry) + 1 := rfl

/-- The ReadDirent loop encodes the longest fitting front segment of the
queue in order, returns its total byte length, and keeps the rest queued. -/
theorem readDirentLoop_eq_spec (es : List (List Nat)) (bufLen : Nat) :
    readDirentLoop es bufLen =
      ((es.take (drainCount es bufLen)).flatMap encodeRecord,
        ((es.take (drainCount es bufLen)).flatMap encodeRecord).length,
        es.drop (drainCount es bufLen)) := by
  induction es generalizing bufLen with
  | nil => simp [readDirentLoop, drainCount]
  | cons entry rest ih =>
    rw [readDirentLoop_cons, drainCount_cons]
    by_cases h : entryRecordLen entry > bufLen
    · rw [if_pos h, if_pos h]
      simp
    · rw [if_neg h, if_neg h, ih (bufLen - entryRecordLen entry)]
      simp only [List.take_succ_cons, List.drop_succ_cons, List.flatMap_cons,
        List.length_append, encodeRecord_length]

/-- The ReadDirent loop never reports more bytes than the buffer holds. -/
theorem readDirentLoop_n_le (es : List (List Nat)) (bufLen : Nat) :
    (readDirentLoop es bufLen).2.1 ≤ bufLen := by
  induction es generalizing bufLen with
  | nil => simp [readDirentLoop]
  | cons entry rest ih =>
    rw [readDirentLoop_cons]
    by_cases h : entryRecordLen entry > bufLen
    · rw [if_pos h]
      simp
    · rw [if_neg h]
      have h2 := ih (bufLen - entryRecordLen entry)
      show entryRecordLen entry + (readDirentLoop rest (bufLen - entryRecordLen entry)).2.1 ≤ bufLen
      omega

/-- When the ReadDirent loop leaves an entry at the front of the queue, that
entry record did not fit in the remaining buffer space. -/
theorem readDirentLoop_stop (es : List (List Nat)) (bufLen : Nat) (e : List Nat)
    (rest2 : List (List Nat))
    (h : (readDirentLoop es bufLen).2.2 = e :: rest2) :
    bufLen - (readDirentLoop es bufLen).2.1 < entryRecordLen e := by
  induction es generalizing bufLen with
  | nil => simp [readDirentLoop] at h
  | cons entry rest ih =>
    rw [readDirentLoop_cons] at h ⊢
    by_cases hfit : entryRecordLen entry > bufLen
    · rw [if_pos hfit] at h ⊢
      have h2 : entry :: rest = e :: rest2 := h
      have he : entry = e := (List.cons.injEq _ _ _ _ ▸ h2).1
      subst he
      show bufLen - 0 < entryRecordLen entry
      omega
    · rw [if_neg hfit] at h ⊢
      have h4 : (readDirentLoop rest (bufLen - entryRecordLen entry)).2.2 = e :: rest2 := h
      have h3 := ih (bufLen - entryRecordLen entry) h4
      show bufLen - (entryRecordLen entry + (readDirentLoop rest (bufLen - entryRecordLen entry)).2.1)
        < entryRecordLen e
      omega

/-- Assigning the descriptor at the head of the table replaces its record. -/
theorem setFd_head (k : Int) (g f : jsFile) (rest : FS) :
    setFd ((k, g) :: rest) k f = (k, f) :: rest := by
  simp [setFd]

/-- The 65534-byte entry name used to exercise the length header. -/
theorem longName_length : longName.length = 65534 := by
  rw [longName]
  exact List.length_replicate 65534 97

/-- C3 (amended): on a descriptor with a pending-entries queue, ReadDirent
writes the encoded records of the drained front segment of the queue in
order into the buffer, returns their total byte count, removes exactly those
entries and keeps the rest queued; the byte count never exceeds the buffer,
and whenever an entry is left at the front of the queue its record would not
have fit in the remaining space (no partial record is ever written).  On a
descriptor with no queue it fails with `EINVAL`.  Each record consists of a
2-byte little-endian header holding the low 16 bits of the total record
length `2 + name length` followed by the raw name bytes; whenever that
length is below `65536` the header counts the whole record exactly. -/
theorem readDirent_drains_in_order (files : FS) (fd : Int) (f : jsFile) (bufLen : Nat)
    (hfd : lookupFd files fd = some f) :
    (∀ es, f.entries = some es →
      ReadDirent files fd bufLen =
        (.ok (((es.take (drainCount es bufLen)).flatMap encodeRecord).length,
              (es.take (drainCount es bufLen)).flatMap encodeRecord),
          setFd files fd { f with entries := some (es.drop (drainCount es bufLen)) }) ∧
      ((es.take (drainCount es bufLen)).flatMap encodeRecord).length ≤ bufLen ∧
      (∀ e rest2, es.drop (drainCount es bufLen) = e :: rest2 →
        bufLen - ((es.take (drainCount es bufLen)).flatMap encodeRecord).length
          < 2 + e.length)) ∧
    (f.entries = none → ReadDirent files fd bufLen = (.error Errno.EINVAL, files)) ∧
    (∀ entry : List Nat,
      encodeRecord entry =
        (2 + entry.length) % 256 :: (2 + entry.length) / 256 % 256 :: entry ∧
      (2 + entry.length < 65536 →
        (2 + entry.length) % 256 + 256 * ((2 + entry.length) / 256 % 256) =
          2 + entry.length)) := by
  refine ⟨?_, ?_, ?_⟩
  · intro es hes
    refine ⟨?_, ?_, ?_⟩
    · simp [ReadDirent, hfd, hes, readDirentLoop_eq_spec]
    · have h1 := readDirentLoop_n_le es bufLen
      rw [readDirentLoop_eq_spec] at h1
      exact h1
    · intro e rest2 hdrop
      have h2 := readDirentLoop_stop es bufLen e rest2
      rw [readDirentLoop_eq_spec] at h2
      have h3 := h2 hdrop
      simpa [entryRecordLen] using h3
  · intro hnone
    simp [ReadDirent, hfd, hnone]
  · intro entry
    constructor
    · simp [encodeRecord, entryRecordLen, Nat.shiftRight_eq_div_pow]
    · intro hlt
      omega

/-- Counterexample to C3 as stated: with a single pending entry of 65534
name bytes and a 65536-byte buffer, the record is written, but its 2-byte
little-endian header holds 0, which does not count the 65536-byte record. -/
theorem readDirent_header_wraps :
    ReadDirent [(3, ⟨"d", some [longName], 0, false⟩)] 3 65536 =
      (.ok (65536, 0 :: 0 :: longName),
        [(3, ⟨"d", some [], 0, false⟩)]) ∧
    0 + 256 * 0 ≠ 65536 := by
  constructor
  · have hfit : ¬ entryRecordLen longName > 65536 := by
      intro hcon
      rw [entryRecordLen, longName_length] at hcon
      omega
    have henc : encodeRecord longName = 0 :: 0 :: longName := by
      show entryRecordLen longName % 256 :: (entryRecordLen longName >>> 8) % 256 :: longName =
        0 :: 0 :: longName
      rw [entryRecordLen, longName_length]
      norm_num [Nat.shiftRight_eq_div_pow]
    have hRD : ReadDirent [(3, ⟨"d", some [longName], 0, false⟩)] 3 65536 =
        (.ok ((readDirentLoop [longName] 65536).2.1, (readDirentLoop [longName] 65536).1),
          setFd [(3, ⟨"d", some [longName], 0, false⟩)] 3
            ⟨"d", some (readDirentLoop [longName] 65536).2.2, 0, false⟩) := rfl
    have hspec := readDirentLoop_eq_spec [longName] 65536
    have hk : drainCount [longName] 65536 = 1 := by
      rw [drainCount_cons, if_neg hfit]
      rfl
    have htake : List.take 1 [longName] = [longName] := rfl
    have hdrop : List.drop 1 [longName] = ([] : List (List Nat)) := rfl
    have hflat : ([longName] : List (List Nat)).flatMap encodeRecord =
        encodeRecord longName ++ [] := rfl
    have hlen2 : (encodeRecord longName).length = 65536 := by
      rw [encodeRecord_length, entryRecordLen, longName_length]
    rw [hk, htake, hdrop, hflat, List.append_nil, hlen2, henc] at hspec
    have p1 : (readDirentLoop [longName] 65536).2.1 = 65536 := by rw [hspec]
    have p2 : (readDirentLoop [longName] 65536).1 = 0 :: 0 :: longName := by rw [hspec]
    have p3 : (readDirentLoop [longName] 65536).2.2 = [] := by rw [hspec]
    rw [hRD, p1, p2, p3, setFd_head]
  · omega

/-- Witness for C3 at a directory descriptor holding entries "a" and "bb"
with a 4-byte buffer: only the first record (3 bytes) fits; the follow-up
call with a larger buffer returns the remaining record intact. -/
theorem readDirent_drains_in_order_witness :
    ReadDirent [(3, ⟨"d", some [[97], [98, 98]], 0, false⟩)] 3 4 =
      (.ok (3, [3, 0, 97]), [(3, ⟨"d", some [[98, 98]], 0, false⟩)]) ∧
    ReadDirent [(3, ⟨"d", some [[98, 98]], 0, false⟩)] 3 16 =
      (.ok (4, [4, 0, 98, 98]), [(3, ⟨"d", some [], 0, false⟩)]) := by
  have h1 := readDirent_drains_in_order
    [(3, ⟨"d", some [[97], [98, 98]], 0, false⟩)] 3 ⟨"d", some [[97], [98, 98]], 0, false⟩ 4
    (by decide)
  have h2 := readDirent_drains_in_order
    [(3, ⟨"d", some [[98, 98]], 0, false⟩)] 3 ⟨"d", some [[98, 98]], 0, false⟩ 16
    (by decide)
  have e1 := (h1.1 [[97], [98, 98]] rfl).1
  have e2 := (h2.1 [[98, 98]] rfl).1
  constructor
  · rw [e1]
    rfl
  · rw [e2]
    rfl

/-- Counterexample to C4 as stated: closing descriptor 0 deletes its table
record, so the records for 0, 1, 2 do not survive every operation sequence
that includes `close(0)`. -/
theorem stdio_removed_by_close :
    lookupFd initialFiles 0 = some ⟨"", none, 0, false⟩ ∧
    lookupFd (Close initialFiles none 0).2 0 = none := by decide

/-- C4 (amended): the records for descriptors 0, 1 and 2 are pre-registered
in the initial table, but close removes them like any other descriptor:
after `close(fd)` the record for `fd` is gone, for every fd including the
standard streams. -/
theorem stdio_preregistered_and_closable :
    lookupFd initialFiles 0 = some ⟨"", none, 0, false⟩ ∧
    lookupFd initialFiles 1 = some ⟨"", none, 0, false⟩ ∧
    lookupFd initialFiles 2 = some ⟨"", none, 0, false⟩ ∧
    (∀ (hostClose : Option Errno) (fd : Int),
      lookupFd (Close initialFiles hostClose fd).2 fd = none) := by
  refine ⟨by decide, by decide, by decide, ?_⟩
  intro hostClose fd
  simp [Close, lookupFd_delFd_self]

/-- The ReadDirent loop writes zero bytes exactly when the queue is empty or
the first queued record does not fit the buffer. -/
theorem readDirentLoop_zero_iff (es : List (List Nat)) (bufLen : Nat) :
    ((readDirentLoop es bufLen).2.1 = 0 ∧ (readDirentLoop es bufLen).1 = []) ↔
      (es = [] ∨ ∃ e rest, es = e :: rest ∧ bufLen < 2 + e.length) := by
  cases es with
  | nil => simp [readDirentLoop]
  | cons e rest =>
    rw [readDirentLoop_cons]
    by_cases hfit : entryRecordLen e > bufLen
    · rw [if_pos hfit]
      simp only [entryRecordLen, gt_iff_lt] at hfit
      simp [hfit]
    · rw [if_neg hfit]
      simp only [entryRecordLen, gt_iff_lt, not_lt] at hfit
      simp [encodeRecord]
      omega

/-- Counterexample to C5 as stated: a 2-byte buffer cannot hold the 3-byte
record of the single pending entry, so the call returns zero bytes and no
error even though the queue is not empty. -/
theorem readDirent_zero_bytes_nonempty_queue :
    ReadDirent [(3, ⟨"d", some [[97]], 0, false⟩)] 3 2 =
      (.ok (0, []), [(3, ⟨"d", some [[97]], 0, false⟩)]) ∧
    ([[97]] : List (List Nat)) ≠ [] := by
  constructor
  · rfl
  · decide

/-- C5 (amended): on a descriptor with a pending-entries queue, ReadDirent
returns zero bytes and no error exactly when the queue is empty or the first
queued entry record `2 + name length` exceeds the buffer length; in
particular a call on an empty queue returns zero bytes and no error. -/
theorem readDirent_zero_bytes_iff (files : FS) (fd : Int) (f : jsFile)
    (es : List (List Nat)) (bufLen : Nat)
    (hfd : lookupFd files fd = some f) (hes : f.entries = some es) :
    (ReadDirent files fd bufLen).1 = .ok (0, []) ↔
      (es = [] ∨ ∃ e rest, es = e :: rest ∧ bufLen < 2 + e.length) := by
  rw [← readDirentLoop_zero_iff es bufLen]
  simp [ReadDirent, hfd, hes]

/-- Witness for C5: a call on an exhausted queue returns zero bytes with no
error. -/
theorem readDirent_zero_bytes_iff_witness :
    (ReadDirent [(3, ⟨"d", some [], 0, false⟩)] 3 8).1 = .ok (0, []) :=
  (readDirent_zero_bytes_iff [(3, ⟨"d", some [], 0, false⟩)] 3
    ⟨"d", some [], 0, false⟩ [] 8 (by decide) rfl).mpr (Or.inl rfl)

/-- Every failure of the path check is the `EINVAL` error. -/
theorem checkPath_eq_some (path : String) (e : Errno) (h : checkPath path = some e) :
    e = Errno.EINVAL := by
  unfold checkPath at h
  split_ifs at h <;> simp_all

/-- Counterexample to C6 as stated: `chown` on the empty path fails with
`EINVAL` from the local path check, not with `ENOSYS`. -/
theorem chown_empty_path_einval :
    Chown "" 0 0 = some Errno.EINVAL ∧ Errno.EINVAL ≠ Errno.ENOSYS := by decide

/-- C6 (amended): `fchown` always fails with `ENOSYS`; `chown` and `lchown`
fail with `ENOSYS` for every valid path (nonempty, no NUL byte) and with
`EINVAL` for invalid paths — all three always fail, whatever the
arguments. -/
theorem chown_family_always_fails (path : String) (uid gid fd2 : Int) :
    Fchown fd2 uid gid = some Errno.ENOSYS ∧
    (checkPath path = none →
      Chown path uid gid = some Errno.ENOSYS ∧ Lchown path uid gid = some Errno.ENOSYS) ∧
    (∀ e, checkPath path = some e →
      Chown path uid gid = some Errno.EINVAL ∧ Lchown path uid gid = some Errno.EINVAL) ∧
    (Chown path uid gid).isSome = true ∧ (Lchown path uid gid).isSome = true := by
  refine ⟨rfl, ?_, ?_, ?_, ?_⟩
  · intro h
    simp [Chown, Lchown, h]
  · intro e he
    have h2 := checkPath_eq_some path e he
    subst h2
    simp [Chown, Lchown, he]
  · unfold Chown
    cases h : checkPath path <;> simp
  · unfold Lchown
    cases h : checkPath path <;> simp

/-- Witness for C6 at the valid path "a" and at a file descriptor. -/
theorem chown_family_always_fails_witness :
    Chown "a" 5 7 = some Errno.ENOSYS ∧ Lchown "a" 5 7 = some Errno.ENOSYS ∧
    Fchown 9 5 7 = some Errno.ENOSYS :=
  ⟨((chown_family_always_fails "a" 5 7 9).2.1 (by decide)).1,
   ((chown_family_always_fails "a" 5 7 9).2.1 (by decide)).2,
   (chown_family_always_fails "a" 5 7 9).1⟩

/-- Counterexample to C7 as stated: seek to a negative position via
`whence = end` does fail with `EINVAL`, but only after the fstat host call
was attempted (host-call flag `true`), so the rejection is not local. -/
theorem seek_end_negative_calls_host :
    (Seek [(3, ⟨"f", none, 0, false⟩)] (.ok 0) 3 (-5) 2).1.1 = .error Errno.EINVAL ∧
    (Seek [(3, ⟨"f", none, 0, false⟩)] (.ok 0) 3 (-5) 2).2 = true := by
  constructor <;> rfl

/-- C7 (amended): for a descriptor in the table, seek with an unknown
`whence` fails with `EINVAL` before any host call; a negative computed
position fails with `EINVAL` and leaves the table (hence the tracked
position and seeked flag) unchanged, with no host call for
`whence ∈ {start, current}`, while for `whence = end` the fstat host call
needed to compute the position has already been attempted. -/
theorem seek_invalid_rejected (files : FS) (fd : Int) (f : jsFile)
    (offset whence : Int) (hostSz : Except Errno Int)
    (hfd : lookupFd files fd = some f) :
    (whence ≠ seekStart → whence ≠ seekCurrent → whence ≠ seekEnd →
      Seek files hostSz fd offset whence = ((.error Errno.EINVAL, files), false)) ∧
    (whence = seekStart → offset < 0 →
      Seek files hostSz fd offset whence = ((.error Errno.EINVAL, files), false)) ∧
    (whence = seekCurrent → f.pos + offset < 0 →
      Seek files hostSz fd offset whence = ((.error Errno.EINVAL, files), false)) ∧
    (∀ size, whence = seekEnd → hostSz = .ok size → size + offset < 0 →
      Seek files hostSz fd offset whence = ((.error Errno.EINVAL, files), true)) := by
  refine ⟨?_, ?_, ?_, ?_⟩
  · intro h0 h1 h2
    simp [Seek, hfd, h0, h1, h2]
  · intro h0 hneg
    subst h0
    simp [Seek, hfd, seekStart, hneg]
  · intro h1 hneg
    subst h1
    simp [Seek, hfd, seekStart, seekCurrent, hneg]
  · intro size h2 hsz hneg
    subst h2
    subst hsz
    simp [Seek, hfd, seekStart, seekCurrent, seekEnd, hneg]

/-- Witness for C7: unknown whence 7, a current seek to -9 from position 0,
and an end seek to -9 against size 4, all on descriptor 3. -/
theorem seek_invalid_rejected_witness :
    Seek [(3, ⟨"f", none, 0, false⟩)] (.ok 0) 3 5 7 =
      ((.error Errno.EINVAL, [(3, ⟨"f", none, 0, false⟩)]), false) ∧
    Seek [(3, ⟨"f", none, 0, false⟩)] (.ok 0) 3 (-9) seekCurrent =
      ((.error Errno.EINVAL, [(3, ⟨"f", none, 0, false⟩)]), false) ∧
    Seek [(3, ⟨"f", none, 0, false⟩)] (.ok 4) 3 (-9) seekEnd =
      ((.error Errno.EINVAL, [(3, ⟨"f", none, 0, false⟩)]), true) :=
  ⟨(seek_invalid_rejected [(3, ⟨"f", none, 0, false⟩)] 3 ⟨"f", none, 0, false⟩ 5 7
      (.ok 0) (by decide)).1 (by decide) (by decide) (by decide),
   (seek_invalid_rejected [(3, ⟨"f", none, 0, false⟩)] 3 ⟨"f", none, 0, false⟩ (-9) seekCurrent
      (.ok 0) (by decide)).2.2.1 rfl (by decide),
   (seek_invalid_rejected [(3, ⟨"f", none, 0, false⟩)] 3 ⟨"f", none, 0, false⟩ (-9) seekEnd
      (.ok 4) (by decide)).2.2.2 4 rfl rfl (by decide)⟩

/-- C8: setStat converts each millisecond host timestamp to whole seconds by
truncating division by 1000 and to a nanosecond remainder by the matching
remainder times 1,000,000, for the access, modify and change timestamps; for
a non-negative timestamp the two parts reconstruct the original value with a
remainder in `[0, 10^9)`, and 1500 ms yields 1 s and 500,000,000 ns. -/
theorem setStat_timestamp_conversion (st : Stat_t) (jsSt : JsStat) :
    (setStat st jsSt).Atime = Int.tdiv jsSt.atimeMs 1000 ∧
    (setStat st jsSt).AtimeNsec = Int.tmod jsSt.atimeMs 1000 * 1000000 ∧
    (setStat st jsSt).Mtime = Int.tdiv jsSt.mtimeMs 1000 ∧
    (setStat st jsSt).MtimeNsec = Int.tmod jsSt.mtimeMs 1000 * 1000000 ∧
    (setStat st jsSt).Ctime = Int.tdiv jsSt.ctimeMs 1000 ∧
    (setStat st jsSt).CtimeNsec = Int.tmod jsSt.ctimeMs 1000 * 1000000 ∧
    (0 ≤ jsSt.atimeMs →
      (setStat st jsSt).Atime * 1000000000 + (setStat st jsSt).AtimeNsec =
        jsSt.atimeMs * 1000000 ∧
      0 ≤ (setStat st jsSt).AtimeNsec ∧ (setStat st jsSt).AtimeNsec < 1000000000) ∧
    (jsSt.atimeMs = 1500 →
      (setStat st jsSt).Atime = 1 ∧ (setStat st jsSt).AtimeNsec = 500000000) := by
  refine ⟨rfl, rfl, rfl, rfl, rfl, rfl, ?_, ?_⟩
  · intro hms
    have hadd := Int.tdiv_add_tmod jsSt.atimeMs 1000
    have hnn : 0 ≤ Int.tmod jsSt.atimeMs 1000 := Int.tmod_nonneg 1000 hms
    have hlt : Int.tmod jsSt.atimeMs 1000 < 1000 :=
      Int.tmod_lt_of_pos jsSt.atimeMs (by norm_num)
    refine ⟨?_, ?_, ?_⟩
    · show Int.tdiv jsSt.atimeMs 1000 * 1000000000 + Int.tmod jsSt.atimeMs 1000 * 1000000 =
        jsSt.atimeMs * 1000000
      linarith
    · show 0 ≤ Int.tmod jsSt.atimeMs 1000 * 1000000
      positivity
    · show Int.tmod jsSt.atimeMs 1000 * 1000000 < 1000000000
      linarith
  · intro hms
    constructor
    · show Int.tdiv jsSt.atimeMs 1000 = 1
      rw [hms]
      decide
    · show Int.tmod jsSt.atimeMs 1000 * 1000000 = 500000000
      rw [hms]
      decide

/-- Witness for C8: a host stat with access timestamp 1500 ms populates
1 second and 500,000,000 nanoseconds. -/
theorem setStat_timestamp_conversion_witness :
    (setStat (⟨0, 0, 0, 0, 0, 0, 0, 0, 0, 0, 0, 0, 0, 0, 0, 0⟩ : Stat_t)
        (⟨0, 0, 0, 0, 0, 0, 0, 0, 0, 0, 1500, 0, 0⟩ : JsStat)).Atime = 1 ∧
    (setStat (⟨0, 0, 0, 0, 0, 0, 0, 0, 0, 0, 0, 0, 0, 0, 0, 0⟩ : Stat_t)
        (⟨0, 0, 0, 0, 0, 0, 0, 0, 0, 0, 1500, 0, 0⟩ : JsStat)).AtimeNsec = 500000000 :=
  (setStat_timestamp_conversion ⟨0, 0, 0, 0, 0, 0, 0, 0, 0, 0, 0, 0, 0, 0, 0, 0⟩
    ⟨0, 0, 0, 0, 0, 0, 0, 0, 0, 0, 1500, 0, 0⟩).2.2.2.2.2.2.2 rfl

/-- C9: when the post-open fstat host call fails, Open ignores the failure
and succeeds, inserting a record with no pending-entries queue; only a
failure of the directory enumeration performed when the fstat reported a
directory is surfaced as the result of Open (and a stat reporting a
non-directory likewise yields a queue-less record). -/
theorem open_ignores_fstat_failure (files : FS) (path : String) (fd : Int)
    (hostReaddir : Except Errno (List (List Nat))) (hpath : checkPath path = none) :
    (∀ e, Open files path (.ok fd) (.error e) hostReaddir =
      (.ok fd, setFd files fd ⟨path, none, 0, false⟩)) ∧
    (∀ e, Open files path (.ok fd) (.ok true) (.error e) = (.error e, files)) ∧
    Open files path (.ok fd) (.ok false) hostReaddir =
      (.ok fd, setFd files fd ⟨path, none, 0, false⟩) := by
  refine ⟨?_, ?_, ?_⟩
  · intro e
    simp [Open, hpath]
  · intro e
    simp [Open, hpath]
  · simp [Open, hpath]

/-- Witness for C9: opening "d" as descriptor 3 with a failing fstat
succeeds with a queue-less record; with fstat reporting a directory and a
failing readdir, the readdir error is surfaced. -/
theorem open_ignores_fstat_failure_witness :
    Open initialFiles "d" (.ok 3) (.error Errno.EPERM) (.ok []) =
      (.ok 3, setFd initialFiles 3 ⟨"d", none, 0, false⟩) ∧
    Open initialFiles "d" (.ok 3) (.ok true) (.error Errno.EPERM) =
      (.error Errno.EPERM, initialFiles) :=
  ⟨(open_ignores_fstat_failure initialFiles "d" 3 (.ok []) (by decide)).1 Errno.EPERM,
   (open_ignores_fstat_failure initialFiles "d" 3 (.ok []) (by decide)).2.1 Errno.EPERM⟩

/-- C10: for a valid path and a two-element timestamp array, UtimesNano
passes exactly the path and the two whole-second components to the host
utimes call and returns the host result; the nanosecond components do not
appear in the host call arguments or affect the result. -/
theorem utimesNano_forwards_only_seconds (path : String) (s0 n0 s1 n1 : Int)
    (hostUtimes : Option Errno) (hpath : checkPath path = none) :
    UtimesNano hostUtimes path [⟨s0, n0⟩, ⟨s1, n1⟩] = (hostUtimes, some (path, s0, s1)) := by
  simp [UtimesNano, hpath]

/-- Witness for C10: two timestamps with distinct nanosecond parts forward
only their second parts. -/
theorem utimesNano_forwards_only_seconds_witness :
    UtimesNano none "a" [⟨5, 111⟩, ⟨9, 222⟩] = (none, some ("a", 5, 9)) :=
  utimesNano_forwards_only_seconds "a" 5 111 9 222 none (by decide)

end FsJs
